import Mathlib

/-!
# KScreenGenieGUI: capture requests, visibility and the send-to menu

A shallow embedding of the slots of `KScreenGenieGUI` (src/KScreenGenieGUI.cpp):
`captureScreenshot`, `setScreenshotAndShow`, `addSendToAction`, `addSendToSeperator`
and `sendToRequest`.  A slot is a function from the widget state to the new state and
the list of observable effects it performs, in program order.

The C++ statement `int msec = captureDelay * 1000;` multiplies two IEEE-754 binary64
values and converts the product to `int`.  Both steps are modelled on exact integers:
a finite double is a sign, a mantissa and a binary exponent.

`SendToActionsPopulator`, the aggregator behind the menu, is only called from `init`; its
pass is modelled from the design document.

The namespace `SettingsDialog` embeds the `textEdited` handler of `SaveOptionsPage` and
`saveChanges` of `GeneralOptionsPage`.
-/

namespace KScreenGenie

/-! ## IEEE-754 binary64 values -/

/-- A binary64 value.  `finite neg mant exp` denotes `(-1)^neg * mant * 2^exp`; a real
double has `mant < 2^53` and `-1074 ≤ exp ≤ 971`, and the same number may be written with
several `(mant, exp)` pairs. -/
inductive Double
  | finite (neg : Bool) (mant : Nat) (exp : Int)
  | inf (neg : Bool)
  | nan
  deriving DecidableEq, Repr

namespace Double

/-- Number of binary digits of `n`, computed with `fuel` halvings at most. -/
def bitLengthAux : Nat → Nat → Nat
  | 0, _ => 0
  | fuel + 1, n => if n = 0 then 0 else bitLengthAux fuel (n / 2) + 1

/-- Number of binary digits of `n` (`0` for `n = 0`). -/
def bitLength (n : Nat) : Nat := bitLengthAux n n

/-- Round the exact value `(-1)^neg * m * 2^e` to binary64, to nearest with ties to even:
drop the `k` low bits that do not fit the 53-bit significand or lie below the least
subnormal exponent `-1074`, and overflow to infinity from `2^1024` on. -/
def round (neg : Bool) (m : Nat) (e : Int) : Double :=
  let k : Nat := max (bitLength m - 53) (-1074 - e).toNat
  let q := m / 2 ^ k
  let r := m % 2 ^ k
  let m' := if 2 ^ k < 2 * r ∨ (2 * r = 2 ^ k ∧ q % 2 = 1) then q + 1 else q
  let e' := e + k
  if 1024 < (bitLength m' : Int) + e' then inf neg else finite neg m' e'

/-- The binary64 product `x * y`. -/
def mul : Double → Double → Double
  | finite s₁ m₁ e₁, finite s₂ m₂ e₂ => round (s₁ != s₂) (m₁ * m₂) (e₁ + e₂)
  | finite s₁ m₁ _, inf s₂ => if m₁ = 0 then nan else inf (s₁ != s₂)
  | inf s₁, finite s₂ m₂ _ => if m₂ = 0 then nan else inf (s₁ != s₂)
  | inf s₁, inf s₂ => inf (s₁ != s₂)
  | nan, _ => nan
  | _, nan => nan

instance : Mul Double := ⟨mul⟩

/-- The double that an `int` literal such as `1000` converts to. -/
def ofNat (n : Nat) : Double := round false n 0

/-- The integer part of the magnitude `mant * 2^exp`. -/
def truncMagnitude (mant : Nat) (exp : Int) : Nat :=
  if 0 ≤ exp then mant * 2 ^ exp.toNat else mant / 2 ^ (-exp).toNat

/-- The floating-integral conversion `double → int` of C++: the fractional part is
discarded; the result is `none` (the behaviour is undefined) when the truncated value
is not representable in a 32-bit `int`, which includes infinities and NaN. -/
def toInt : Double → Option Int
  | finite neg mant exp =>
    let v : Int := if neg then -(truncMagnitude mant exp : Int) else truncMagnitude mant exp
    if -2 ^ 31 ≤ v ∧ v ≤ 2 ^ 31 - 1 then some v else none
  | inf _ => none
  | nan => none

/-- The rational number a finite double denotes. -/
def toRat : Double → Option ℚ
  | finite neg mant exp => some ((if neg then -(mant : ℚ) else mant) * (2 : ℚ) ^ exp)
  | inf _ => none
  | nan => none

/-- Sign bit of a double (`false` for NaN). -/
def signBit : Double → Bool
  | finite neg _ _ => neg
  | inf neg => neg
  | nan => false

end Double

/-- Truncation of a rational toward zero, as the spec words it: the integer part. -/
def truncateTowardZero (v : ℚ) : Int := if 0 ≤ v then ⌊v⌋ else ⌈v⌉

/-! ## Widget state and effects -/

/-- `ImageGrabber::GrabMode`, with the enumerators `captureScreenshot` uses. -/
inductive GrabMode
  | InvalidChoice | FullScreen | CurrentScreen | ActiveWindow | RectangularRegion
  deriving DecidableEq, Repr

/-- `SendToActionsPopulator::SendToActionType`: the three enumerators `sendToRequest`
switches on; `other raw` is any value of the underlying integer outside them. -/
inductive SendToActionType
  | HardcodedAction | KServiceAction | KipiAction
  | other (raw : Int)
  deriving DecidableEq, Repr

/-- `ActionData`: the pair of a type tag and a string carried by a menu action. -/
abbrev ActionData := SendToActionType × String

/-- A `QAction` built by `addSendToAction`. -/
structure Action (Icon : Type) where
  icon : Icon
  name : String
  data : ActionData
  deriving DecidableEq, Repr

/-- An entry of the `QMenu` behind the "Send To..." button. -/
inductive MenuEntry (Icon : Type)
  | action (a : Action Icon)
  | separator
  deriving DecidableEq, Repr

/-- What a slot does that is visible from outside, in program order: calls of `hide()` and
`show()`, log output, the pixmap hand-over to the QML item, and emitted signals. -/
inductive Effect (Pixmap Service : Type)
  | hide
  | show
  | qWarning (msg : String)
  | qDebug (msg : String)
  | setPixmap (pixmap : Pixmap)
  | reloadScreenshot
  | newScreenshotRequest (mode : GrabMode) (msec : Option Int)
      (includePointer includeDecorations : Bool)
  | sendToClipboardRequest
  | sendToOpenWithRequest
  | sendToServiceRequest (service : Service)
  | sendToKipiRequest (actionId : Int)
  deriving DecidableEq, Repr

/-- The part of the `KScreenGenieGUI` widget the slots read and write. -/
structure GUI (Icon Pixmap : Type) where
  visible : Bool
  mMenuActions : List (Action Icon)
  mSendToMenu : List (MenuEntry Icon)
  mScreenshotImageProvider : Option Pixmap
  deriving DecidableEq, Repr

section Slots

variable {Icon Pixmap Service : Type}

/-- `QWidget::hide()`. -/
def GUI.hide (g : GUI Icon Pixmap) : GUI Icon Pixmap := { g with visible := false }

/-- `QWidget::show()`. -/
def GUI.show (g : GUI Icon Pixmap) : GUI Icon Pixmap := { g with visible := true }

/-- `KScreenGenieGUI::captureScreenshot`. -/
def captureScreenshot (g : GUI Icon Pixmap) (captureMode : String) (captureDelay : Double)
    (includePointer includeDecorations : Bool) :
    GUI Icon Pixmap × List (Effect Pixmap Service) :=
  let g := g.hide
  let msec : Option Int := (captureDelay * Double.ofNat 1000).toInt
  if captureMode = "fullScreen" then
    (g, [.hide, .newScreenshotRequest .FullScreen msec includePointer includeDecorations])
  else if captureMode = "currentScreen" then
    (g, [.hide, .newScreenshotRequest .CurrentScreen msec includePointer includeDecorations])
  else if captureMode = "activeWindow" then
    (g, [.hide, .newScreenshotRequest .ActiveWindow msec includePointer includeDecorations])
  else if captureMode = "rectangularRegion" then
    (g, [.hide,
      .newScreenshotRequest .RectangularRegion msec includePointer includeDecorations])
  else
    (g.show, [.hide, .qWarning "Capture called with invalid mode", .show])

/-- `KScreenGenieGUI::setScreenshotAndShow`. -/
def setScreenshotAndShow (g : GUI Icon Pixmap) (pixmap : Pixmap) :
    GUI Icon Pixmap × List (Effect Pixmap Service) :=
  ({ g with mScreenshotImageProvider := some pixmap }.show,
    [.setPixmap pixmap, .reloadScreenshot, .show])

/-- `KScreenGenieGUI::addSendToAction`: a new action is appended to `mMenuActions` and to
the menu. -/
def addSendToAction (g : GUI Icon Pixmap) (icon : Icon) (name : String) (data : ActionData) :
    GUI Icon Pixmap :=
  let action : Action Icon := { icon := icon, name := name, data := data }
  { g with
    mMenuActions := g.mMenuActions ++ [action]
    mSendToMenu := g.mSendToMenu ++ [.action action] }

/-- `KScreenGenieGUI::addSendToSeperator`: `QMenu::addSeparator` appends a separator. -/
def addSendToSeperator (g : GUI Icon Pixmap) : GUI Icon Pixmap :=
  { g with mSendToMenu := g.mSendToMenu ++ [.separator] }

/-- `KScreenGenieGUI::sendToRequest`.  `sender` is the payload of the `QAction` that
triggered the slot, `none` when `QObject::sender()` is not a `QAction`.  The KDE and Qt
library calls `KService::serviceByMenuId` and `QString::toLongLong` are parameters. -/
def sendToRequest (serviceByMenuId : String → Service) (toLongLong : String → Int)
    (sender : Option ActionData) : List (Effect Pixmap Service) :=
  match sender with
  | none => [.qWarning "Internal qobject_cast error. This is a bug."]
  | some data =>
    match data.1 with
    | .HardcodedAction =>
      if data.2 = "clipboard" then [.sendToClipboardRequest]
      else if data.2 = "application" then [.sendToOpenWithRequest]
      else []
    | .KServiceAction => [.sendToServiceRequest (serviceByMenuId data.2)]
    | .KipiAction => [.qDebug "KIPI", .sendToKipiRequest (toLongLong data.2)]
    | .other _ => []

end Slots

/-! ## Observations on effect traces -/

section Traces

variable {Pixmap Service : Type}

/-- An effect is a visibility transition when it is a call of `hide()` or `show()`. -/
def Effect.isTransition : Effect Pixmap Service → Bool
  | .hide => true
  | .show => true
  | _ => false

/-- The `hide()` and `show()` calls of a trace, in order. -/
def transitions (t : List (Effect Pixmap Service)) : List (Effect Pixmap Service) :=
  t.filter Effect.isTransition

/-- An effect is a capture request when it is `emit newScreenshotRequest(...)`. -/
def Effect.isCaptureRequest : Effect Pixmap Service → Bool
  | .newScreenshotRequest _ _ _ _ => true
  | _ => false

/-- The capture requests of a trace, in order. -/
def captureRequests (t : List (Effect Pixmap Service)) : List (Effect Pixmap Service) :=
  t.filter Effect.isCaptureRequest

/-- An effect is an export action when it is one of the four `sendTo...Request` signals. -/
def Effect.isExportAction : Effect Pixmap Service → Bool
  | .sendToClipboardRequest => true
  | .sendToOpenWithRequest => true
  | .sendToServiceRequest _ => true
  | .sendToKipiRequest _ => true
  | _ => false

/-- The export actions of a trace, in order. -/
def exportActions (t : List (Effect Pixmap Service)) : List (Effect Pixmap Service) :=
  t.filter Effect.isExportAction

/-- An effect is an error report when it is a `qWarning()` line. -/
def Effect.isWarning : Effect Pixmap Service → Bool
  | .qWarning _ => true
  | _ => false

/-- The visibility after replaying the `hide()` and `show()` calls of a trace. -/
def visibleAfter (v : Bool) (t : List (Effect Pixmap Service)) : Bool :=
  t.foldl (fun b e => match e with
    | .hide => false
    | .show => true
    | _ => b) v

/-- The visibility changes `(before, after)` that the `hide()` and `show()` calls of a
trace make, in order, from the visibility `v`. -/
def visibilitySteps (v : Bool) : List (Effect Pixmap Service) → List (Bool × Bool)
  | [] => []
  | .hide :: t => (v, false) :: visibilitySteps false t
  | .show :: t => (v, true) :: visibilitySteps true t
  | .qWarning _ :: t => visibilitySteps v t
  | .qDebug _ :: t => visibilitySteps v t
  | .setPixmap _ :: t => visibilitySteps v t
  | .reloadScreenshot :: t => visibilitySteps v t
  | .newScreenshotRequest _ _ _ _ :: t => visibilitySteps v t
  | .sendToClipboardRequest :: t => visibilitySteps v t
  | .sendToOpenWithRequest :: t => visibilitySteps v t
  | .sendToServiceRequest _ :: t => visibilitySteps v t
  | .sendToKipiRequest _ :: t => visibilitySteps v t

/-- The four valid capture-mode tokens. -/
def validTokens : List String :=
  ["fullScreen", "currentScreen", "activeWindow", "rectangularRegion"]

end Traces

/-! ## Signals of the populator and the slots as a transition system -/

/-- The signals of `SendToActionsPopulator` that `init` connects to the widget:
`haveAction(icon, name, data)` to `addSendToAction`, `haveSeperator()` to
`addSendToSeperator`. -/
inductive PopulatorEvent (Icon : Type)
  | haveAction (icon : Icon) (name : String) (data : ActionData)
  | haveSeperator
  deriving DecidableEq, Repr

/-- The menu entry an event stands for: a separator for `haveSeperator`, otherwise the
action with the icon, name and payload of the event. -/
def PopulatorEvent.toMenuEntry {Icon : Type} : PopulatorEvent Icon → MenuEntry Icon
  | .haveAction icon name data => .action { icon := icon, name := name, data := data }
  | .haveSeperator => .separator

/-- The registered action of an event, `none` for a separator. -/
def PopulatorEvent.toAction? {Icon : Type} : PopulatorEvent Icon → Option (Action Icon)
  | .haveAction icon name data => some { icon := icon, name := name, data := data }
  | .haveSeperator => none

/-- A menu entry is a separator. -/
def MenuEntry.isSeparator {Icon : Type} : MenuEntry Icon → Bool
  | .separator => true
  | .action _ => false

/-- A populator event is `haveSeperator`. -/
def PopulatorEvent.isSeperator {Icon : Type} : PopulatorEvent Icon → Bool
  | .haveSeperator => true
  | .haveAction _ _ _ => false

/-- The widget as the constructor leaves it: an empty menu, no registered action, no
screenshot; the window is on screen. -/
def GUI.initial {Icon Pixmap : Type} : GUI Icon Pixmap :=
  { visible := true, mMenuActions := [], mSendToMenu := [], mScreenshotImageProvider := none }

/-- Delivery of one populator signal to the slot it is connected to. -/
def deliver {Icon Pixmap : Type} (g : GUI Icon Pixmap) : PopulatorEvent Icon → GUI Icon Pixmap
  | .haveAction icon name data => addSendToAction g icon name data
  | .haveSeperator => addSendToSeperator g

/-- Delivery of a sequence of populator signals, in arrival order. -/
def deliverAll {Icon Pixmap : Type} (g : GUI Icon Pixmap) (evs : List (PopulatorEvent Icon)) :
    GUI Icon Pixmap :=
  evs.foldl deliver g

/-- One invocation of a slot of the widget, with its arguments. -/
inductive SlotCall (Icon Pixmap : Type)
  | populator (ev : PopulatorEvent Icon)
  | captureScreenshot (captureMode : String) (captureDelay : Double)
      (includePointer includeDecorations : Bool)
  | setScreenshotAndShow (pixmap : Pixmap)
  | sendToRequest (sender : Option ActionData)

/-- The state after one slot invocation (`sendToRequest` only emits signals). -/
def SlotCall.run {Icon Pixmap : Type} (g : GUI Icon Pixmap) :
    SlotCall Icon Pixmap → GUI Icon Pixmap
  | .populator ev => deliver g ev
  | .captureScreenshot captureMode captureDelay includePointer includeDecorations =>
    (KScreenGenie.captureScreenshot g captureMode captureDelay includePointer
      includeDecorations : GUI Icon Pixmap × List (Effect Pixmap Unit)).1
  | .setScreenshotAndShow pixmap =>
    (KScreenGenie.setScreenshotAndShow g pixmap : GUI Icon Pixmap × List (Effect Pixmap Unit)).1
  | .sendToRequest _ => g

/-- The state after a sequence of slot invocations. -/
def runAll {Icon Pixmap : Type} (g : GUI Icon Pixmap) (cs : List (SlotCall Icon Pixmap)) :
    GUI Icon Pixmap :=
  cs.foldl SlotCall.run g

/-- The populator signals among a sequence of slot invocations, in order. -/
def populatorEvents {Icon Pixmap : Type} (cs : List (SlotCall Icon Pixmap)) :
    List (PopulatorEvent Icon) :=
  cs.filterMap (fun c => match c with
    | .populator ev => some ev
    | _ => none)

/-! ## The export-target aggregator

`SendToActionsPopulator::process` is called by `init` but its body is not part of the
sources at hand; the definitions of this section follow the design document. -/

/-- The two built-in export actions. -/
inductive HardcodedTarget
  | Clipboard | OpenWithApplication
  deriving DecidableEq, Repr

/-- The tagged payload of an export target descriptor. -/
inductive Payload
  | Hardcoded (action : HardcodedTarget)
  | SystemService (serviceId : String)
  | PluginExport (actionId : Int) (pluginGroup : Int)
  deriving DecidableEq, Repr

/-- An export target descriptor: display name, icon and payload. -/
structure ExportTargetDescriptor (Icon : Type) where
  displayName : String
  icon : Icon
  payload : Payload
  deriving DecidableEq, Repr

/-- What the aggregator emits: a descriptor or a separator. -/
inductive AggregatorEvent (Icon : Type)
  | descriptor (d : ExportTargetDescriptor Icon)
  | separator
  deriving DecidableEq, Repr

/-- A display name with ASCII letters folded to lower case, as character codes. -/
def caseFold (s : String) : List Nat := s.data.map (fun c => c.toLower.toNat)

/-- Lexicographic "less or equal" on lists of character codes. -/
def lexLe : List Nat → List Nat → Bool
  | [], _ => true
  | _ :: _, [] => false
  | a :: as, b :: bs => a < b || (a == b && lexLe as bs)

/-- Case-insensitive ascending order of descriptors by display name. -/
def nameLe {Icon : Type} (a b : ExportTargetDescriptor Icon) : Prop :=
  lexLe (caseFold a.displayName) (caseFold b.displayName) = true

instance {Icon : Type} : DecidableRel (@nameLe Icon) :=
  fun a b =>
    inferInstanceAs (Decidable (lexLe (caseFold a.displayName) (caseFold b.displayName) = true))

/-- A descriptor is one of a system service. -/
def ExportTargetDescriptor.isSystemService {Icon : Type} (d : ExportTargetDescriptor Icon) :
    Bool :=
  match d.payload with
  | .SystemService _ => true
  | _ => false

/-- A descriptor is one of a plugin action. -/
def ExportTargetDescriptor.isPluginExport {Icon : Type} (d : ExportTargetDescriptor Icon) :
    Bool :=
  match d.payload with
  | .PluginExport _ _ => true
  | _ => false

/-- The descriptors of an event sequence, separators dropped. -/
def descriptors {Icon : Type} (evs : List (AggregatorEvent Icon)) :
    List (ExportTargetDescriptor Icon) :=
  evs.filterMap (fun e => match e with
    | .descriptor d => some d
    | .separator => none)

/-- A system-service result: display name, icon and service identifier. -/
structure ServiceResult (Icon : Type) where
  displayName : String
  icon : Icon
  serviceId : String
  deriving DecidableEq, Repr

/-- A plugin action: identifier, display name and icon. -/
structure PluginAction (Icon : Type) where
  actionId : Int
  displayName : String
  icon : Icon
  deriving DecidableEq, Repr

/-- The descriptor of a system-service result. -/
def ServiceResult.toDescriptor {Icon : Type} (r : ServiceResult Icon) :
    ExportTargetDescriptor Icon :=
  { displayName := r.displayName, icon := r.icon, payload := .SystemService r.serviceId }

/-- The descriptor of the action of the plugin number `pluginGroup`. -/
def PluginAction.toDescriptor {Icon : Type} (pluginGroup : Int) (a : PluginAction Icon) :
    ExportTargetDescriptor Icon :=
  { displayName := a.displayName, icon := a.icon,
    payload := .PluginExport a.actionId pluginGroup }

/-- Modelled from the spec: the hardcoded provider of the aggregator
(`SendToActionsPopulator`, whose implementation is missing): a fixed pair of built-in
actions in fixed order, `Clipboard`, then `OpenWithApplication`. -/
def hardcodedGroup {Icon : Type} (clipboard openWith : String × Icon) :
    List (AggregatorEvent Icon) :=
  [.descriptor ⟨clipboard.1, clipboard.2, .Hardcoded .Clipboard⟩,
   .descriptor ⟨openWith.1, openWith.2, .Hardcoded .OpenWithApplication⟩]

/-- Modelled from the spec: the system-service provider of the aggregator
(`SendToActionsPopulator`, whose implementation is missing): the results sorted by display
name, case-insensitive ascending; a provider that fails (`none`) contributes nothing. -/
def serviceGroup {Icon : Type} (services : Option (List (ServiceResult Icon))) :
    List (AggregatorEvent Icon) :=
  ((services.getD []).map ServiceResult.toDescriptor |>.insertionSort nameLe).map
    AggregatorEvent.descriptor

/-- Modelled from the spec: the groups of the plugin-export provider of the aggregator
(`SendToActionsPopulator`, whose implementation is missing): the plugins in load order
from number `n` on, the actions of one plugin together, a separator between the groups of
distinct plugins; a plugin that fails to enumerate (`none`) contributes an empty group. -/
def pluginGroups {Icon : Type} :
    Int → List (Option (List (PluginAction Icon))) → List (AggregatorEvent Icon)
  | _, [] => []
  | n, [p] => (p.getD []).map (fun a => .descriptor (a.toDescriptor n))
  | n, p :: q :: ps =>
    (p.getD []).map (fun a => .descriptor (a.toDescriptor n)) ++
      .separator :: pluginGroups (n + 1) (q :: ps)

/-- Modelled from the spec: one aggregation pass, `SendToActionsPopulator::process`, whose
implementation is missing: the discovery order is
`[Hardcoded..., SEP, SystemService... (sorted), SEP, Plugin1 actions..., SEP, Plugin2
actions..., ...]`, the separators being emitted unconditionally. -/
def process {Icon : Type} (clipboard openWith : String × Icon)
    (services : Option (List (ServiceResult Icon)))
    (plugins : List (Option (List (PluginAction Icon)))) : List (AggregatorEvent Icon) :=
  hardcodedGroup clipboard openWith ++ .separator :: serviceGroup services ++
    .separator :: pluginGroups 1 plugins

/-- A plain decimal reading of `QString::toLongLong()`: an optional sign and at least one
digit give the number when it fits 64 bits, anything else gives `0`. -/
def toLongLong (s : String) : Int :=
  let digits (cs : List Char) : Option Nat :=
    if cs ≠ [] ∧ cs.all Char.isDigit then
      some (cs.foldl (fun n c => 10 * n + (c.toNat - 48)) 0)
    else none
  let v : Option Int :=
    match s.data with
    | '-' :: cs => (digits cs).map (fun n => -(n : Int))
    | '+' :: cs => (digits cs).map (fun n => (n : Int))
    | cs => (digits cs).map (fun n => (n : Int))
  match v with
  | some n => if -2 ^ 63 ≤ n ∧ n ≤ 2 ^ 63 - 1 then n else 0
  | none => 0

end KScreenGenie

/-! ## The settings dialog pages

`SaveOptionsPage` (src/Gui/SettingsDialog/SaveOptionsPage.cpp) and `GeneralOptionsPage`
(src/Gui/SettingsDialog/GeneralOptionsPage.cpp).  Strings are lists of characters; the
case folding of one character and `QString::toUpper` are parameters of the handler. -/

namespace SettingsDialog

/-- `QString::endsWith(suffix, Qt::CaseInsensitive)`: the last characters of `text` equal
those of `suffix` after folding every character with `fold`. -/
def endsWith (fold : Char → Char) (text suffix : String) : Bool :=
  (suffix.data.map fold).isSuffixOf (text.data.map fold)

/-- `QString::chop(n)`: the last `n` characters are removed; nothing is left when the
string has `n` characters or fewer. -/
def chop (text : String) (n : Nat) : String :=
  ⟨text.data.take (text.length - n)⟩

/-- A `QComboBox`: its item texts and the current index, `-1` when no item is current. -/
structure ComboBox where
  items : List String
  currentIndex : Int
  deriving DecidableEq, Repr

/-- `QComboBox::findText(text)`: the index of the first item equal to `text`, `-1` when
there is none. -/
def ComboBox.findText (c : ComboBox) (text : String) : Int :=
  if text ∈ c.items then (c.items.indexOf text : Int) else -1

/-- `QComboBox::setCurrentIndex(index)`: an index outside the items leaves no current
item. -/
def ComboBox.setCurrentIndex (c : ComboBox) (index : Int) : ComboBox :=
  { c with currentIndex := if 0 ≤ index ∧ index < c.items.length then index else -1 }

/-- `QComboBox::currentText()`: the text of the current item, empty when there is none. -/
def ComboBox.currentText (c : ComboBox) : String :=
  if 0 ≤ c.currentIndex then (c.items[c.currentIndex.toNat]?).getD "" else ""

/-- The widgets of `SaveOptionsPage` that the `textEdited` handler reads and writes: the
text of the filename field and the format selector. -/
structure SaveOptionsPage where
  mSaveNameFormat : String
  mSaveImageFormat : ComboBox
  deriving DecidableEq, Repr

/-- The items the constructor gives the format selector: the supported image formats in
upper case, in the order of the list. -/
def imageFormatItems (toUpper : String → String) (supportedImageFormats : List String) :
    List String :=
  supportedImageFormats.map toUpper

/-- One round of the `Q_FOREACH` loop of the `textEdited` handler, for the format `fmt`. -/
def textEditedStep (fold : Char → Char) (toUpper : String → String) (newText : String)
    (p : SaveOptionsPage) (fmt : String) : SaveOptionsPage :=
  if endsWith fold newText ("." ++ fmt) then
    let txtCopy := chop newText (fmt.length + 1)
    { mSaveNameFormat := txtCopy
      mSaveImageFormat :=
        p.mSaveImageFormat.setCurrentIndex (p.mSaveImageFormat.findText (toUpper fmt)) }
  else p

/-- The handler connected to `QLineEdit::textEdited` of the filename field: the loop over
`QImageWriter::supportedImageFormats()`. -/
def textEdited (fold : Char → Char) (toUpper : String → String)
    (supportedImageFormats : List String) (p : SaveOptionsPage) (newText : String) :
    SaveOptionsPage :=
  supportedImageFormats.foldl (textEditedStep fold toUpper newText) p

/-- A case folding of single characters: ASCII capitals to small letters. -/
def asciiFold (c : Char) : Char := c.toLower

/-- An upper-casing of strings: ASCII small letters to capitals. -/
def asciiUpper (s : String) : String := ⟨s.data.map Char.toUpper⟩

/-- `Qt::CheckState` of a `QCheckBox`. -/
inductive CheckState
  | Unchecked | PartiallyChecked | Checked
  deriving DecidableEq, Repr

/-- The widgets and the dirty flag of `GeneralOptionsPage`; `neverButton` is the third
button of the exclusive group. -/
structure GeneralOptionsPage where
  mUseLightBackground : CheckState
  mShowMagnifier : CheckState
  neverButton : Bool
  mRememberAlways : Bool
  mRememberUntilClosed : Bool
  mChangesMade : Bool
  deriving DecidableEq, Repr

/-- Modelled from the spec: the configuration store behind `SpectacleConfig::instance()`
(SpectacleConfig.cpp is not among the sources), a key-value store in which each setter
writes the value of its key and leaves the other keys alone; the four keys that
`GeneralOptionsPage` writes. -/
structure SpectacleConfig where
  useLightRegionMaskColour : Bool
  rememberLastRectangularRegion : Bool
  alwaysRememberRegion : Bool
  showMagnifierChecked : Bool
  deriving DecidableEq, Repr

/-- `GeneralOptionsPage::saveChanges`: the four setters in program order, then the dirty
flag is cleared. -/
def GeneralOptionsPage.saveChanges (page : GeneralOptionsPage) (cfgManager : SpectacleConfig) :
    GeneralOptionsPage × SpectacleConfig :=
  let cfgManager :=
    { cfgManager with useLightRegionMaskColour := page.mUseLightBackground == CheckState.Checked }
  let cfgManager :=
    { cfgManager with
      rememberLastRectangularRegion := page.mRememberUntilClosed || page.mRememberAlways }
  let cfgManager := { cfgManager with alwaysRememberRegion := page.mRememberAlways }
  let cfgManager :=
    { cfgManager with showMagnifierChecked := page.mShowMagnifier == CheckState.Checked }
  ({ page with mChangesMade := false }, cfgManager)

/-- `GeneralOptionsPage::markDirty`. -/
def GeneralOptionsPage.markDirty (page : GeneralOptionsPage) : GeneralOptionsPage :=
  { page with mChangesMade := true }

end SettingsDialog

/-! # Theorems -/

namespace KScreenGenie

section CaptureTheorems

variable {Icon Pixmap Service : Type}

/-- The trace of a call whose token is none of the four valid ones. -/
theorem captureScreenshot_invalid (g : GUI Icon Pixmap) (captureMode : String)
    (captureDelay : Double) (includePointer includeDecorations : Bool)
    (h : captureMode ∉ validTokens) :
    (captureScreenshot g captureMode captureDelay includePointer includeDecorations :
      GUI Icon Pixmap × List (Effect Pixmap Service)) =
      (g.hide.show, [.hide, .qWarning "Capture called with invalid mode", .show]) := by
  simp only [validTokens, List.mem_cons, List.mem_singleton, List.not_mem_nil, or_false,
    not_or] at h
  obtain ⟨h₁, h₂, h₃, h₄⟩ := h
  simp [captureScreenshot, h₁, h₂, h₃, h₄]

/-- The mode each valid token resolves to. -/
theorem captureScreenshot_valid (g : GUI Icon Pixmap) (captureMode : String)
    (captureDelay : Double) (includePointer includeDecorations : Bool)
    (h : captureMode ∈ validTokens) :
    ∃ mode : GrabMode, mode ≠ .InvalidChoice ∧
      (captureScreenshot g captureMode captureDelay includePointer includeDecorations :
        GUI Icon Pixmap × List (Effect Pixmap Service)) =
      (g.hide, [.hide, .newScreenshotRequest mode
        (captureDelay * Double.ofNat 1000).toInt includePointer includeDecorations]) := by
  simp only [validTokens, List.mem_cons, List.mem_singleton, List.not_mem_nil, or_false] at h
  rcases h with h | h | h | h <;> subst h
  · exact ⟨.FullScreen, by decide, by simp [captureScreenshot]⟩
  · exact ⟨.CurrentScreen, by decide, by simp [captureScreenshot]⟩
  · exact ⟨.ActiveWindow, by decide, by simp [captureScreenshot]⟩
  · exact ⟨.RectangularRegion, by decide, by simp [captureScreenshot]⟩

/-- C1: for each of the four tokens "fullScreen", "currentScreen", "activeWindow",
"rectangularRegion", `captureScreenshot` emits exactly one `newScreenshotRequest`, with
the mode FullScreen, CurrentScreen, ActiveWindow, RectangularRegion respectively; for
every other string the call logs the invalid-mode warning and emits no request. -/
theorem captureScreenshot_mode_resolution (g : GUI Icon Pixmap) (captureMode : String)
    (captureDelay : Double) (includePointer includeDecorations : Bool) :
    let trace : List (Effect Pixmap Service) :=
      (captureScreenshot g captureMode captureDelay includePointer includeDecorations).2
    let msec := (captureDelay * Double.ofNat 1000).toInt
    (captureMode = "fullScreen" → captureRequests trace =
        [.newScreenshotRequest .FullScreen msec includePointer includeDecorations]) ∧
    (captureMode = "currentScreen" → captureRequests trace =
        [.newScreenshotRequest .CurrentScreen msec includePointer includeDecorations]) ∧
    (captureMode = "activeWindow" → captureRequests trace =
        [.newScreenshotRequest .ActiveWindow msec includePointer includeDecorations]) ∧
    (captureMode = "rectangularRegion" → captureRequests trace =
        [.newScreenshotRequest .RectangularRegion msec includePointer includeDecorations]) ∧
    (captureMode ∉ validTokens →
      captureRequests trace = [] ∧
      trace = [.hide, .qWarning "Capture called with invalid mode", .show]) := by
  refine ⟨?_, ?_, ?_, ?_, ?_⟩
  · intro h; subst h
    simp [captureScreenshot, captureRequests, Effect.isCaptureRequest]
  · intro h; subst h
    simp [captureScreenshot, captureRequests, Effect.isCaptureRequest]
  · intro h; subst h
    simp [captureScreenshot, captureRequests, Effect.isCaptureRequest]
  · intro h; subst h
    simp [captureScreenshot, captureRequests, Effect.isCaptureRequest]
  · intro h
    rw [captureScreenshot_invalid g captureMode captureDelay includePointer includeDecorations h]
    simp [captureRequests, Effect.isCaptureRequest]

/-- Witness of C1 at the tokens "fullScreen" (valid), "bogus" and "FullScreen" (both
rejected, the second differing from a valid token by case only). -/
theorem captureScreenshot_mode_resolution_witness :
    captureRequests (captureScreenshot (GUI.initial : GUI Unit Unit) "fullScreen"
        (.finite false 1 0) true false : GUI Unit Unit × List (Effect Unit Unit)).2 =
      [.newScreenshotRequest .FullScreen (some 1000) true false] ∧
    "bogus" ∉ validTokens ∧
    captureRequests (captureScreenshot (GUI.initial : GUI Unit Unit) "bogus"
        (.finite false 1 0) true false : GUI Unit Unit × List (Effect Unit Unit)).2 = [] ∧
    "FullScreen" ∉ validTokens ∧
    captureRequests (captureScreenshot (GUI.initial : GUI Unit Unit) "FullScreen"
        (.finite false 1 0) true false : GUI Unit Unit × List (Effect Unit Unit)).2 = [] :=
  ⟨(captureScreenshot_mode_resolution GUI.initial "fullScreen" (.finite false 1 0) true
      false).1 rfl,
    by decide,
    ((captureScreenshot_mode_resolution GUI.initial "bogus" (.finite false 1 0) true
      false).2.2.2.2 (by decide)).1,
    by decide,
    ((captureScreenshot_mode_resolution GUI.initial "FullScreen" (.finite false 1 0) true
      false).2.2.2.2 (by decide)).1⟩

end CaptureTheorems

end KScreenGenie

namespace KScreenGenie

section VisibilityTheorems

variable {Icon Pixmap Service : Type}

/-- C2 as stated fails: the call with the token "bogus" performs `hide()` and then
`show()`, two transitions and not zero, and the window is hidden after the first. -/
theorem captureScreenshot_invalid_transitions_counterexample :
    transitions (captureScreenshot (GUI.initial : GUI Unit Unit) "bogus" (.finite false 1 0)
        true true : GUI Unit Unit × List (Effect Unit Unit)).2 = [.hide, .show] ∧
    (transitions (captureScreenshot (GUI.initial : GUI Unit Unit) "bogus" (.finite false 1 0)
        true true : GUI Unit Unit × List (Effect Unit Unit)).2).length ≠ 0 ∧
    visibleAfter (GUI.initial : GUI Unit Unit).visible
      ((captureScreenshot (GUI.initial : GUI Unit Unit) "bogus" (.finite false 1 0)
        true true : GUI Unit Unit × List (Effect Unit Unit)).2.take 1) = false ∧
    visibilitySteps (GUI.initial : GUI Unit Unit).visible
      (captureScreenshot (GUI.initial : GUI Unit Unit) "bogus" (.finite false 1 0)
        true true : GUI Unit Unit × List (Effect Unit Unit)).2 =
      [(true, false), (false, true)] := by
  decide

/-- C2, amended: a call whose token is none of the four valid ones performs exactly the
two transitions `hide()`, `show()` in this order, emits no request, and leaves the window
visible and the rest of the state as it was. -/
theorem captureScreenshot_invalid_restores_visibility (g : GUI Icon Pixmap)
    (captureMode : String) (captureDelay : Double) (includePointer includeDecorations : Bool)
    (h : captureMode ∉ validTokens) :
    let r : GUI Icon Pixmap × List (Effect Pixmap Service) :=
      captureScreenshot g captureMode captureDelay includePointer includeDecorations
    transitions r.2 = [.hide, .show] ∧
    visibilitySteps g.visible r.2 = [(g.visible, false), (false, true)] ∧
    captureRequests r.2 = [] ∧
    visibleAfter g.visible r.2 = true ∧
    r.1 = { g with visible := true } := by
  intro r
  have hr : r = (g.hide.show, [.hide, .qWarning "Capture called with invalid mode", .show]) :=
    captureScreenshot_invalid g captureMode captureDelay includePointer includeDecorations h
  rw [hr]
  refine ⟨?_, ?_, ?_, ?_, ?_⟩
  · simp [transitions, Effect.isTransition]
  · simp [visibilitySteps]
  · simp [captureRequests, Effect.isCaptureRequest]
  · simp [visibleAfter]
  · simp [GUI.hide, GUI.show]

/-- Witness of the amended C2 at the token "bogus". -/
theorem captureScreenshot_invalid_restores_visibility_witness :
    "bogus" ∉ validTokens ∧
    transitions (captureScreenshot (GUI.initial : GUI Unit Unit) "bogus" (.finite false 1 0)
        true true : GUI Unit Unit × List (Effect Unit Unit)).2 = [.hide, .show] :=
  ⟨by decide,
    (captureScreenshot_invalid_restores_visibility GUI.initial "bogus" (.finite false 1 0)
      true true (by decide)).1⟩

/-- C5: from a visible window, a call with a valid token performs exactly one transition,
`hide()`, and performs it before the one request it emits; delivering one image through
`setScreenshotAndShow` then performs exactly one transition, `show()`; the whole cycle
performs `[hide, show]` and ends visible. -/
theorem capture_cycle_transitions (g : GUI Icon Pixmap) (captureMode : String)
    (captureDelay : Double) (includePointer includeDecorations : Bool) (pixmap : Pixmap)
    (hvis : g.visible = true) (h : captureMode ∈ validTokens) :
    let r₁ : GUI Icon Pixmap × List (Effect Pixmap Service) :=
      captureScreenshot g captureMode captureDelay includePointer includeDecorations
    let r₂ : GUI Icon Pixmap × List (Effect Pixmap Service) := setScreenshotAndShow r₁.1 pixmap
    transitions r₁.2 = [.hide] ∧
    visibilitySteps g.visible r₁.2 = [(true, false)] ∧
    r₁.1.visible = false ∧
    (∃ req, r₁.2 = [.hide, req] ∧ req.isCaptureRequest = true) ∧
    transitions r₂.2 = [.show] ∧
    visibilitySteps r₁.1.visible r₂.2 = [(false, true)] ∧
    r₂.1.visible = true ∧
    transitions (r₁.2 ++ r₂.2) = [.hide, .show] ∧
    visibilitySteps g.visible (r₁.2 ++ r₂.2) = [(true, false), (false, true)] := by
  intro r₁ r₂
  obtain ⟨mode, -, hr⟩ :=
    @captureScreenshot_valid Icon Pixmap Service g captureMode captureDelay includePointer
      includeDecorations h
  have hr₁ : r₁ = (g.hide, [.hide, .newScreenshotRequest mode
      (captureDelay * Double.ofNat 1000).toInt includePointer includeDecorations]) := hr
  have hr₂ : r₂ = setScreenshotAndShow r₁.1 pixmap := rfl
  rw [hr₂, hr₁, hvis]
  refine ⟨?_, ?_, ?_, ⟨_, rfl, rfl⟩, ?_, ?_, ?_, ?_, ?_⟩
  · simp [transitions, Effect.isTransition]
  · simp [visibilitySteps]
  · simp [GUI.hide]
  · simp [setScreenshotAndShow, transitions, Effect.isTransition]
  · simp [setScreenshotAndShow, visibilitySteps, GUI.hide]
  · simp [setScreenshotAndShow, GUI.show]
  · simp [setScreenshotAndShow, transitions, Effect.isTransition]
  · simp [setScreenshotAndShow, visibilitySteps]

/-- Witness of C5: a cycle with the token "activeWindow" and the image `7`. -/
theorem capture_cycle_transitions_witness :
    (GUI.initial : GUI Unit Nat).visible = true ∧ "activeWindow" ∈ validTokens ∧
    transitions ((captureScreenshot (GUI.initial : GUI Unit Nat) "activeWindow"
        (.finite false 5 (-1)) true false : GUI Unit Nat × List (Effect Nat Unit)).2 ++
      (setScreenshotAndShow (captureScreenshot (GUI.initial : GUI Unit Nat) "activeWindow"
        (.finite false 5 (-1)) true false : GUI Unit Nat × List (Effect Nat Unit)).1 7 :
        GUI Unit Nat × List (Effect Nat Unit)).2) = [.hide, .show] :=
  ⟨rfl, by decide,
    (capture_cycle_transitions GUI.initial "activeWindow" (.finite false 5 (-1)) true false 7
      rfl (by decide)).2.2.2.2.2.2.2.1⟩

end VisibilityTheorems

section DispatchTheorems

variable {Pixmap Service : Type}

/-- C3: `sendToRequest` emits exactly one export action for each of the four payload
shapes: `sendToClipboardRequest` for (HardcodedAction, "clipboard"), `sendToOpenWithRequest`
for (HardcodedAction, "application"), `sendToServiceRequest` of the service looked up by
the id for (KServiceAction, id), and `sendToKipiRequest` of the number read from the string
for (KipiAction, s); so for the service id "org.example.viewer" and the action id 42. -/
theorem sendToRequest_dispatch (serviceByMenuId : String → Service)
    (toLL : String → Int) (s : String) :
    exportActions (sendToRequest serviceByMenuId toLL
        (some (.HardcodedAction, "clipboard")) : List (Effect Pixmap Service)) =
      [.sendToClipboardRequest] ∧
    exportActions (sendToRequest serviceByMenuId toLL
        (some (.HardcodedAction, "application")) : List (Effect Pixmap Service)) =
      [.sendToOpenWithRequest] ∧
    exportActions (sendToRequest serviceByMenuId toLL
        (some (.KServiceAction, s)) : List (Effect Pixmap Service)) =
      [.sendToServiceRequest (serviceByMenuId s)] ∧
    exportActions (sendToRequest serviceByMenuId toLL
        (some (.KipiAction, s)) : List (Effect Pixmap Service)) =
      [.sendToKipiRequest (toLL s)] ∧
    exportActions (sendToRequest serviceByMenuId toLL
        (some (.KServiceAction, "org.example.viewer")) : List (Effect Pixmap Service)) =
      [.sendToServiceRequest (serviceByMenuId "org.example.viewer")] ∧
    exportActions (sendToRequest serviceByMenuId toLongLong
        (some (.KipiAction, "42")) : List (Effect Pixmap Service)) =
      [.sendToKipiRequest 42] := by
  have h42 : toLongLong "42" = 42 := by decide
  refine ⟨?_, ?_, ?_, ?_, ?_, ?_⟩ <;>
    simp [sendToRequest, exportActions, Effect.isExportAction, h42]

/-- C10: a payload that matches none of the four dispatch shapes, a HardcodedAction whose
value is neither "clipboard" nor "application" or a type tag outside the three enumerators,
makes `sendToRequest` do nothing: no export action, no warning, no effect at all. -/
theorem sendToRequest_unmatched_noop (serviceByMenuId : String → Service)
    (toLL : String → Int) (data : ActionData)
    (h : (data.1 = .HardcodedAction ∧ data.2 ≠ "clipboard" ∧ data.2 ≠ "application") ∨
      ∃ raw, data.1 = .other raw) :
    (sendToRequest serviceByMenuId toLL (some data) : List (Effect Pixmap Service)) = [] := by
  obtain ⟨tag, value⟩ := data
  rcases h with ⟨h₁, h₂, h₃⟩ | ⟨raw, h₁⟩
  · simp only at h₁ h₂ h₃
    subst h₁
    simp [sendToRequest, h₂, h₃]
  · simp only at h₁
    subst h₁
    simp [sendToRequest]

/-- Witness of C10 at the payloads (HardcodedAction, "printer") and (other 7, "x"). -/
theorem sendToRequest_unmatched_noop_witness :
    (sendToRequest (fun id => id) toLongLong (some (.HardcodedAction, "printer")) :
      List (Effect Unit String)) = [] ∧
    (sendToRequest (fun id => id) toLongLong (some (.other 7, "x")) :
      List (Effect Unit String)) = [] :=
  ⟨sendToRequest_unmatched_noop (fun id => id) toLongLong (.HardcodedAction, "printer")
      (Or.inl ⟨rfl, by decide, by decide⟩),
    sendToRequest_unmatched_noop (fun id => id) toLongLong (.other 7, "x")
      (Or.inr ⟨7, rfl⟩)⟩

end DispatchTheorems

end KScreenGenie

namespace KScreenGenie

section MenuTheorems

variable {Icon Pixmap : Type}

/-- Delivering populator signals appends their entries to the menu and their actions to
`mMenuActions`, and touches nothing else. -/
theorem deliverAll_eq (g : GUI Icon Pixmap) (evs : List (PopulatorEvent Icon)) :
    deliverAll g evs =
      { g with
        mMenuActions := g.mMenuActions ++ evs.filterMap PopulatorEvent.toAction?
        mSendToMenu := g.mSendToMenu ++ evs.map PopulatorEvent.toMenuEntry } := by
  induction evs generalizing g with
  | nil => simp [deliverAll]
  | cons ev evs ih =>
    have hstep : deliverAll g (ev :: evs) = deliverAll (deliver g ev) evs := rfl
    rw [hstep, ih]
    cases ev <;>
      simp [deliver, addSendToAction, addSendToSeperator, PopulatorEvent.toAction?,
        PopulatorEvent.toMenuEntry]

/-- C6: the signals `haveAction` and `haveSeperator` delivered to an initially empty menu
build a menu of the same length and order as the signal sequence: entry `i` is a separator
exactly when signal `i` is, and is otherwise the action with the icon, name and payload of
signal `i`; `mMenuActions` is the subsequence of the action signals in arrival order. -/
theorem menu_mirrors_event_sequence (evs : List (PopulatorEvent Icon)) :
    (deliverAll (GUI.initial : GUI Icon Pixmap) evs).mSendToMenu.length = evs.length ∧
    (deliverAll (GUI.initial : GUI Icon Pixmap) evs).mSendToMenu =
      evs.map PopulatorEvent.toMenuEntry ∧
    (∀ i : Nat, (deliverAll (GUI.initial : GUI Icon Pixmap) evs).mSendToMenu[i]? =
      evs[i]?.map PopulatorEvent.toMenuEntry) ∧
    (∀ i : Nat, ((deliverAll (GUI.initial : GUI Icon Pixmap) evs).mSendToMenu[i]?).map
      MenuEntry.isSeparator = evs[i]?.map PopulatorEvent.isSeperator) ∧
    (deliverAll (GUI.initial : GUI Icon Pixmap) evs).mMenuActions =
      evs.filterMap PopulatorEvent.toAction? := by
  have hmenu : (deliverAll (GUI.initial : GUI Icon Pixmap) evs).mSendToMenu =
      evs.map PopulatorEvent.toMenuEntry := by
    rw [deliverAll_eq]; simp [GUI.initial]
  refine ⟨?_, hmenu, ?_, ?_, ?_⟩
  · rw [hmenu, List.length_map]
  · intro i
    rw [hmenu, List.getElem?_map]
  · intro i
    rw [hmenu, List.getElem?_map]
    cases evs[i]? with
    | none => rfl
    | some ev => cases ev <;> rfl
  · rw [deliverAll_eq]; simp [GUI.initial]

/-- The slots other than the two connected to the populator leave the menu alone. -/
theorem run_menu (g : GUI Icon Pixmap) (c : SlotCall Icon Pixmap) :
    (c.run g).mSendToMenu = g.mSendToMenu ++ (populatorEvents [c]).map
      PopulatorEvent.toMenuEntry ∧
    (c.run g).mMenuActions = g.mMenuActions ++ (populatorEvents [c]).filterMap
      PopulatorEvent.toAction? := by
  cases c with
  | populator ev =>
    cases ev <;>
      simp [SlotCall.run, populatorEvents, deliver, addSendToAction, addSendToSeperator,
        PopulatorEvent.toMenuEntry, PopulatorEvent.toAction?]
  | captureScreenshot captureMode captureDelay includePointer includeDecorations =>
    simp only [SlotCall.run, captureScreenshot, populatorEvents]
    split_ifs <;> simp [GUI.hide, GUI.show]
  | setScreenshotAndShow pixmap =>
    simp [SlotCall.run, setScreenshotAndShow, populatorEvents, GUI.show]
  | sendToRequest sender => simp [SlotCall.run, populatorEvents]

/-- The populator signals of a sequence of invocations, one invocation split off. -/
theorem populatorEvents_cons (c : SlotCall Icon Pixmap) (cs : List (SlotCall Icon Pixmap)) :
    populatorEvents (c :: cs) = populatorEvents [c] ++ populatorEvents cs := by
  cases c <;> simp [populatorEvents, List.filterMap_cons]

/-- The menu after any sequence of slot invocations. -/
theorem runAll_menu (g : GUI Icon Pixmap) (cs : List (SlotCall Icon Pixmap)) :
    (runAll g cs).mSendToMenu = g.mSendToMenu ++ (populatorEvents cs).map
      PopulatorEvent.toMenuEntry ∧
    (runAll g cs).mMenuActions = g.mMenuActions ++ (populatorEvents cs).filterMap
      PopulatorEvent.toAction? := by
  induction cs generalizing g with
  | nil => simp [runAll, populatorEvents]
  | cons c cs ih =>
    have hstep : runAll g (c :: cs) = runAll (c.run g) cs := rfl
    obtain ⟨h₁, h₂⟩ := run_menu g c
    obtain ⟨i₁, i₂⟩ := ih (c.run g)
    rw [hstep, i₁, i₂, h₁, h₂, populatorEvents_cons c cs]
    simp

/-- C7 as stated fails: after a pass that delivered a clipboard action and a separator, a
further `haveAction` signal changes the menu, which grows from two entries to three. -/
theorem menu_changes_after_completion_counterexample :
    (deliver
      (deliverAll (GUI.initial : GUI Unit Unit)
        [.haveAction () "Copy To Clipboard" (.HardcodedAction, "clipboard"), .haveSeperator])
      (.haveAction () "Viewer" (.KServiceAction, "org.example.viewer"))).mSendToMenu ≠
    (deliverAll (GUI.initial : GUI Unit Unit)
        [.haveAction () "Copy To Clipboard" (.HardcodedAction, "clipboard"),
          .haveSeperator]).mSendToMenu ∧
    (deliverAll (GUI.initial : GUI Unit Unit)
        [.haveAction () "Copy To Clipboard" (.HardcodedAction, "clipboard"),
          .haveSeperator]).mSendToMenu.length = 2 ∧
    (deliver
      (deliverAll (GUI.initial : GUI Unit Unit)
        [.haveAction () "Copy To Clipboard" (.HardcodedAction, "clipboard"), .haveSeperator])
      (.haveAction () "Viewer" (.KServiceAction, "org.example.viewer"))).mSendToMenu.length
      = 3 := by
  decide

/-- C7, amended: the widget has no completion gate, and from any state (so from the one
at completion) a sequence of later slot invocations changes the menu only by appending:
the earlier entries stay, in the same order, followed by the entries of the later
`haveAction` and `haveSeperator` signals in arrival order; when no such signal arrives
later, the menu and `mMenuActions` are the same as at completion. -/
theorem menu_append_only_after_completion (g : GUI Icon Pixmap)
    (later : List (SlotCall Icon Pixmap)) :
    (runAll g later).mSendToMenu =
      g.mSendToMenu ++ (populatorEvents later).map PopulatorEvent.toMenuEntry ∧
    (runAll g later).mSendToMenu.length = g.mSendToMenu.length + (populatorEvents later).length ∧
    (∀ i : Nat, i < g.mSendToMenu.length → (runAll g later).mSendToMenu[i]? = g.mSendToMenu[i]?) ∧
    (populatorEvents later = [] →
      (runAll g later).mSendToMenu = g.mSendToMenu ∧
      (runAll g later).mMenuActions = g.mMenuActions) := by
  obtain ⟨h₁, h₂⟩ := runAll_menu g later
  refine ⟨h₁, ?_, ?_, ?_⟩
  · rw [h₁]; simp
  · intro i hi
    rw [h₁, List.getElem?_append_left hi]
  · intro h
    rw [h₁, h₂, h]
    simp

/-- Witness of the amended C7: after completion a capture cycle and a menu selection
leave the menu as it was. -/
theorem menu_append_only_after_completion_witness :
    populatorEvents ([.captureScreenshot "fullScreen" (.finite false 1 0) true true,
      .setScreenshotAndShow 7, .sendToRequest (some (.HardcodedAction, "clipboard"))] :
      List (SlotCall Unit Nat)) = [] ∧
    (runAll (deliverAll (GUI.initial : GUI Unit Nat)
        [.haveAction () "Copy To Clipboard" (.HardcodedAction, "clipboard"), .haveSeperator])
      [.captureScreenshot "fullScreen" (.finite false 1 0) true true,
        .setScreenshotAndShow 7,
        .sendToRequest (some (.HardcodedAction, "clipboard"))]).mSendToMenu =
    (deliverAll (GUI.initial : GUI Unit Nat)
        [.haveAction () "Copy To Clipboard" (.HardcodedAction, "clipboard"),
          .haveSeperator]).mSendToMenu :=
  ⟨rfl,
    ((menu_append_only_after_completion
      (deliverAll (GUI.initial : GUI Unit Nat)
        [.haveAction () "Copy To Clipboard" (.HardcodedAction, "clipboard"), .haveSeperator])
      [.captureScreenshot "fullScreen" (.finite false 1 0) true true,
        .setScreenshotAndShow 7,
        .sendToRequest (some (.HardcodedAction, "clipboard"))]).2.2.2 rfl).1⟩

end MenuTheorems

end KScreenGenie

namespace KScreenGenie

section DelayTheorems

variable {Icon Pixmap Service : Type}

/-- The literal `1000` is exactly representable. -/
theorem ofNat_thousand : Double.ofNat 1000 = .finite false 1000 0 := by decide

/-- The integer part of the magnitude is the floor of the rational magnitude. -/
theorem floor_magnitude (m : Nat) (e : Int) :
    ⌊(m : ℚ) * (2 : ℚ) ^ e⌋ = (Double.truncMagnitude m e : Int) := by
  unfold Double.truncMagnitude
  split_ifs with h
  · obtain ⟨k, rfl⟩ := Int.eq_ofNat_of_zero_le h
    have : (m : ℚ) * (2 : ℚ) ^ (k : ℤ) = ((m * 2 ^ k : ℕ) : ℚ) := by
      rw [zpow_natCast]; push_cast; rfl
    rw [this, Int.floor_natCast]
    simp
  · push_neg at h
    obtain ⟨k, hk⟩ := Int.exists_eq_neg_ofNat (le_of_lt h)
    subst hk
    have : (m : ℚ) * (2 : ℚ) ^ (-(k : ℤ)) = (m : ℚ) / ((2 ^ k : ℕ) : ℚ) := by
      rw [zpow_neg, zpow_natCast, div_eq_mul_inv]; push_cast; rfl
    rw [this, Rat.floor_natCast_div_natCast]
    simp

/-- The conversion to `int` of a finite double is the truncation toward zero of the number
it denotes, when that fits 32 bits. -/
theorem truncate_finite (neg : Bool) (m : Nat) (e : Int) :
    truncateTowardZero ((if neg then -(m : ℚ) else m) * (2 : ℚ) ^ e) =
      if neg then -(Double.truncMagnitude m e : Int) else Double.truncMagnitude m e := by
  have hpow : (0 : ℚ) < (2 : ℚ) ^ e := zpow_pos (by norm_num) e
  have hmag : (0 : ℚ) ≤ (m : ℚ) * (2 : ℚ) ^ e := mul_nonneg (Nat.cast_nonneg m) hpow.le
  cases neg with
  | false =>
    simp only [Bool.false_eq_true, if_false]
    unfold truncateTowardZero
    rw [if_pos hmag, floor_magnitude]
  | true =>
    simp only [if_true]
    unfold truncateTowardZero
    rw [neg_mul]
    by_cases hm : m = 0
    · subst hm
      simp [Double.truncMagnitude]
    · have hpos : (0 : ℚ) < (m : ℚ) * (2 : ℚ) ^ e :=
        mul_pos (Nat.cast_pos.mpr (Nat.pos_of_ne_zero hm)) hpow
      rw [if_neg (by linarith), Int.ceil_neg, floor_magnitude]

/-- A number below `2^k` has at most `k` binary digits. -/
theorem bitLengthAux_le (fuel n k : Nat) (h : n < 2 ^ k) : Double.bitLengthAux fuel n ≤ k := by
  induction fuel generalizing n k with
  | zero => simp [Double.bitLengthAux]
  | succ fuel ih =>
    unfold Double.bitLengthAux
    split_ifs with hn
    · exact Nat.zero_le k
    · cases k with
      | zero => omega
      | succ k =>
        have : n / 2 < 2 ^ k := by
          rw [Nat.div_lt_iff_lt_mul (by norm_num)]
          rw [pow_succ] at h
          exact h
        exact Nat.succ_le_succ (ih (n / 2) k this)

/-- Rounding leaves a value alone that fits the 53-bit significand and the exponent
range. -/
theorem round_exact (neg : Bool) (m : Nat) (e : Int) (hb : Double.bitLength m ≤ 53)
    (hlo : -1074 ≤ e) (hhi : e ≤ 971) : Double.round neg m e = .finite neg m e := by
  have hk : max (Double.bitLength m - 53) (-1074 - e).toNat = 0 := by
    have h₁ : Double.bitLength m - 53 = 0 := by omega
    have h₂ : (-1074 - e).toNat = 0 := by omega
    rw [h₁, h₂]; rfl
  have hb' : ¬ (1024 : Int) < (Double.bitLength m : Int) + (e + ((0 : Nat) : Int)) := by
    omega
  unfold Double.round
  dsimp only
  rw [hk]
  have hm : (if 2 ^ 0 < 2 * (m % 2 ^ 0) ∨ 2 * (m % 2 ^ 0) = 2 ^ 0 ∧ m / 2 ^ 0 % 2 = 1
      then m / 2 ^ 0 + 1 else m / 2 ^ 0) = m := by
    simp [Nat.mod_one]
  rw [hm, if_neg hb']
  simp

/-- Rounding is to nearest: the kept significand `m'`, scaled back by the `k` dropped
bits, differs from `m` by at most half a unit of the last kept bit. -/
theorem round_nearest (neg : Bool) (m : Nat) (e : Int) :
    ∃ k m' : Nat, (Double.round neg m e = .finite neg m' (e + k) ∨
        Double.round neg m e = .inf neg) ∧
      2 * (m' * 2 ^ k) ≤ 2 * m + 2 ^ k ∧ 2 * m ≤ 2 * (m' * 2 ^ k) + 2 ^ k := by
  obtain ⟨k, hk⟩ : ∃ k, k = max (Double.bitLength m - 53) (-1074 - e).toNat := ⟨_, rfl⟩
  have hdm : 2 ^ k * (m / 2 ^ k) + m % 2 ^ k = m := Nat.div_add_mod m (2 ^ k)
  have hlt : m % 2 ^ k < 2 ^ k := Nat.mod_lt _ (by positivity)
  refine ⟨k, if 2 ^ k < 2 * (m % 2 ^ k) ∨ (2 * (m % 2 ^ k) = 2 ^ k ∧ m / 2 ^ k % 2 = 1)
    then m / 2 ^ k + 1 else m / 2 ^ k, ?_, ?_⟩
  · unfold Double.round
    dsimp only
    rw [← hk]
    split_ifs <;> simp
  · generalize hx : 2 ^ k * (m / 2 ^ k) = x at hdm
    split_ifs with hc
    · have : (m / 2 ^ k + 1) * 2 ^ k = x + 2 ^ k := by rw [← hx]; ring
      rw [this]
      omega
    · have : m / 2 ^ k * 2 ^ k = x := by rw [← hx]; ring
      rw [this]
      omega

/-- The product with `1000` is exact when it fits the 53-bit significand. -/
theorem mul_thousand_exact (neg : Bool) (m : Nat) (e : Int) (hm : m * 1000 < 2 ^ 53)
    (hlo : -1074 ≤ e) (hhi : e ≤ 971) :
    Double.finite neg m e * Double.ofNat 1000 = .finite neg (m * 1000) e := by
  rw [ofNat_thousand]
  change Double.round (neg != false) (m * 1000) (e + 0) = _
  rw [round_exact _ _ _ (bitLengthAux_le _ _ 53 hm) (by omega) (by omega)]
  simp

/-- The conversion `double → int` against the rational value: a finite double converts
to the truncation toward zero of its value when that lies in the range of `int`, and does
not convert otherwise. -/
theorem toInt_eq_truncate (x : Double) (v : ℚ) (hv : x.toRat = some v) :
    x.toInt = if -2 ^ 31 ≤ truncateTowardZero v ∧ truncateTowardZero v ≤ 2 ^ 31 - 1
      then some (truncateTowardZero v) else none := by
  cases x with
  | finite neg m e =>
    simp only [Double.toRat, Option.some.injEq] at hv
    subst hv
    rw [truncate_finite]
    rfl
  | inf neg => simp [Double.toRat] at hv
  | nan => simp [Double.toRat] at hv

/-- A double that converts to `int` is finite. -/
theorem toRat_of_toInt (x : Double) (r : Int) (hr : x.toInt = some r) :
    ∃ v : ℚ, x.toRat = some v := by
  cases x with
  | finite neg m e => exact ⟨_, rfl⟩
  | inf neg => simp [Double.toInt] at hr
  | nan => simp [Double.toInt] at hr

/-- C4 as stated fails: for the delay `10000000.0` and the token "fullScreen" the product
is `10000000000.0`, whose truncation does not fit an `int`; the conversion is undefined and
the request does not carry the truncated product. -/
theorem delay_conversion_counterexample :
    (captureScreenshot (GUI.initial : GUI Unit Unit) "fullScreen" (.finite false 10000000 0)
        true true : GUI Unit Unit × List (Effect Unit Unit)).2 =
      [.hide, .newScreenshotRequest .FullScreen none true true] ∧
    (Double.finite false 10000000 0 * Double.ofNat 1000).toRat = some 10000000000 ∧
    truncateTowardZero 10000000000 = 10000000000 ∧
    (Double.finite false 10000000 0 * Double.ofNat 1000).toInt ≠
      some (truncateTowardZero 10000000000) := by
  have hp : Double.finite false 10000000 0 * Double.ofNat 1000 =
      .finite false 10000000000 0 := by decide
  have ht : truncateTowardZero 10000000000 = 10000000000 := by
    have h := truncate_finite false 10000000000 0
    simpa [Double.truncMagnitude] using h
  refine ⟨by decide, ?_, ht, ?_⟩
  · rw [hp]; simp [Double.toRat]
  · rw [hp, ht]; decide

/-- C4, amended: for every call with a valid token the request carries the conversion to
`int` of the double product `captureDelay * 1000`; whenever that product is finite and its
truncation toward zero fits a 32-bit `int`, the forwarded delay is exactly this truncation
(the integer part, not the nearest integer), and no other value is ever forwarded.  So
`0.0` gives 0, `1.0` gives 1000, `2.5` gives 2500, and `1.001`, whose product
`1000.9999999999999` lies within a half of 1001, gives 1000. -/
theorem delay_conversion_truncates (g : GUI Icon Pixmap) (captureMode : String)
    (captureDelay : Double) (includePointer includeDecorations : Bool)
    (h : captureMode ∈ validTokens) :
    (∃ mode, (captureScreenshot g captureMode captureDelay includePointer
        includeDecorations : GUI Icon Pixmap × List (Effect Pixmap Service)).2 =
      [.hide, .newScreenshotRequest mode (captureDelay * Double.ofNat 1000).toInt
        includePointer includeDecorations]) ∧
    (∀ v : ℚ, (captureDelay * Double.ofNat 1000).toRat = some v →
      -2 ^ 31 ≤ truncateTowardZero v → truncateTowardZero v ≤ 2 ^ 31 - 1 →
      (captureDelay * Double.ofNat 1000).toInt = some (truncateTowardZero v)) ∧
    (∀ r : Int, (captureDelay * Double.ofNat 1000).toInt = some r →
      ∃ v : ℚ, (captureDelay * Double.ofNat 1000).toRat = some v ∧
        r = truncateTowardZero v) ∧
    (∀ n : Nat, n * 1000 < 2 ^ 31 →
      (Double.finite false n 0 * Double.ofNat 1000).toInt = some ((n * 1000 : Nat) : Int)) ∧
    (Double.finite false 0 0 * Double.ofNat 1000).toInt = some 0 ∧
    (Double.finite false 1 0 * Double.ofNat 1000).toInt = some 1000 ∧
    (Double.finite false 5 (-1) * Double.ofNat 1000).toInt = some 2500 ∧
    (Double.finite false 4508103226997866 (-52) * Double.ofNat 1000).toInt = some 1000 ∧
    (∃ v : ℚ, (Double.finite false 4508103226997866 (-52) * Double.ofNat 1000).toRat = some v ∧
      1001 - v < 1 / 2) := by
  refine ⟨?_, ?_, ?_, ?_, by decide, by decide, by decide, by decide, ?_⟩
  · obtain ⟨mode, -, hr⟩ :=
      @captureScreenshot_valid Icon Pixmap Service g captureMode captureDelay includePointer
        includeDecorations h
    exact ⟨mode, by rw [hr]⟩
  · intro v hv hlo hhi
    rw [toInt_eq_truncate _ v hv, if_pos ⟨hlo, hhi⟩]
  · intro r hr
    obtain ⟨v, hv⟩ := toRat_of_toInt _ r hr
    refine ⟨v, hv, ?_⟩
    rw [toInt_eq_truncate _ v hv] at hr
    split_ifs at hr
    exact (Option.some.inj hr).symm
  · intro n hn
    rw [mul_thousand_exact false n 0 (by omega) (by norm_num) (by norm_num)]
    have h₁ : -(2 : Int) ^ 31 ≤ ((n * 1000 : Nat) : Int) := by
      have : (0 : Int) ≤ ((n * 1000 : Nat) : Int) := Int.natCast_nonneg _
      omega
    have h₂ : ((n * 1000 : Nat) : Int) ≤ 2 ^ 31 - 1 := by
      have : ((n * 1000 : Nat) : Int) < 2 ^ 31 := by exact_mod_cast hn
      omega
    simp only [Double.toInt, Double.truncMagnitude, le_refl, if_true, Int.toNat_zero,
      pow_zero, mul_one, Bool.false_eq_true, if_false]
    rw [if_pos ⟨h₁, h₂⟩]
  · have hp : Double.finite false 4508103226997866 (-52) * Double.ofNat 1000 =
        .finite false 8804889115230207 (-43) := by decide
    rw [hp]
    refine ⟨_, rfl, ?_⟩
    norm_num

/-- Witness of the amended C4: the delay `1.001` with the token "fullScreen". -/
theorem delay_conversion_truncates_witness :
    "fullScreen" ∈ validTokens ∧
    ∃ mode, (captureScreenshot (GUI.initial : GUI Unit Unit) "fullScreen"
        (.finite false 4508103226997866 (-52)) true false :
        GUI Unit Unit × List (Effect Unit Unit)).2 =
      [.hide, .newScreenshotRequest mode
        (Double.finite false 4508103226997866 (-52) * Double.ofNat 1000).toInt true false] :=
  ⟨by decide,
    (delay_conversion_truncates GUI.initial "fullScreen"
      (.finite false 4508103226997866 (-52)) true false (by decide)).1⟩

/-- Rounding keeps the sign: the result is the infinity or a finite double of that sign. -/
theorem round_cases (neg : Bool) (m : Nat) (e : Int) :
    Double.round neg m e = .inf neg ∨ ∃ m' e', Double.round neg m e = .finite neg m' e' := by
  unfold Double.round
  dsimp only
  split_ifs <;> simp

/-- A delay with a clear sign bit never converts to a negative number of milliseconds. -/
theorem toInt_nonneg (d : Double) (r : Int) (hs : d.signBit = false)
    (hr : (d * Double.ofNat 1000).toInt = some r) : 0 ≤ r := by
  rw [ofNat_thousand] at hr
  cases d with
  | finite neg m e =>
    simp only [Double.signBit] at hs
    subst hs
    change (Double.round (false != false) (m * 1000) (e + 0)).toInt = some r at hr
    rcases round_cases (false != false) (m * 1000) (e + 0) with h | ⟨m', e', h⟩
    · rw [h] at hr
      simp [Double.toInt] at hr
    · rw [h] at hr
      simp only [Double.toInt, bne_self_eq_false, Bool.false_eq_true, if_false] at hr
      split_ifs at hr
      rw [← Option.some.inj hr]
      exact Int.natCast_nonneg _
  | inf neg =>
    change (if 1000 = 0 then Double.nan else Double.inf (neg != false)).toInt = some r at hr
    simp [Double.toInt] at hr
  | nan =>
    change Double.nan.toInt = some r at hr
    simp [Double.toInt] at hr

/-- C9 as stated fails: for the token "fullScreen" and the delay `-1.0` a request is
emitted whose delay is -1000 milliseconds. -/
theorem request_delay_negative_counterexample :
    (captureScreenshot (GUI.initial : GUI Unit Unit) "fullScreen" (.finite true 1 0)
        true true : GUI Unit Unit × List (Effect Unit Unit)).2 =
      [.hide, .newScreenshotRequest .FullScreen (some (-1000)) true true] ∧
    ¬ (0 : Int) ≤ -1000 := by
  decide

/-- C9, amended: every request `captureScreenshot` emits carries the two flags of the call
unchanged and, as delay, the conversion of `captureDelay * 1000`; that delay is
non-negative whenever the sign bit of `captureDelay` is clear. -/
theorem request_fields (g : GUI Icon Pixmap) (captureMode : String)
    (captureDelay : Double) (includePointer includeDecorations : Bool)
    (mode : GrabMode) (msec : Option Int) (pointer decorations : Bool)
    (h : Effect.newScreenshotRequest mode msec pointer decorations ∈
      (captureScreenshot g captureMode captureDelay includePointer includeDecorations :
        GUI Icon Pixmap × List (Effect Pixmap Service)).2) :
    pointer = includePointer ∧ decorations = includeDecorations ∧
    msec = (captureDelay * Double.ofNat 1000).toInt ∧
    (captureDelay.signBit = false → ∀ r : Int, msec = some r → 0 ≤ r) := by
  have key : pointer = includePointer ∧ decorations = includeDecorations ∧
      msec = (captureDelay * Double.ofNat 1000).toInt := by
    unfold captureScreenshot at h
    split_ifs at h <;> simp at h <;> simp [h]
  refine ⟨key.1, key.2.1, key.2.2, ?_⟩
  intro hs r hr
  rw [key.2.2] at hr
  exact toInt_nonneg captureDelay r hs hr

/-- Witness of the amended C9: the request of the call ("currentScreen", `2.5`, true,
false). -/
theorem request_fields_witness :
    Effect.newScreenshotRequest .CurrentScreen (some 2500) true false ∈
      (captureScreenshot (GUI.initial : GUI Unit Unit) "currentScreen" (.finite false 5 (-1))
        true false : GUI Unit Unit × List (Effect Unit Unit)).2 ∧
    (some 2500 : Option Int) = (Double.finite false 5 (-1) * Double.ofNat 1000).toInt :=
  ⟨by decide,
    (@request_fields Unit Unit Unit GUI.initial "currentScreen" (.finite false 5 (-1)) true
      false .CurrentScreen (some 2500) true false (by decide)).2.2.1⟩

end DelayTheorems

end KScreenGenie

namespace KScreenGenie

section AggregatorTheorems

variable {Icon : Type}

/-- The lexicographic order on character codes is total. -/
theorem lexLe_total (a b : List Nat) : lexLe a b = true ∨ lexLe b a = true := by
  induction a generalizing b with
  | nil => left; cases b <;> rfl
  | cons x xs ih =>
    cases b with
    | nil => right; rfl
    | cons y ys =>
      simp only [lexLe, Bool.or_eq_true, Bool.and_eq_true, decide_eq_true_eq, beq_iff_eq]
      rcases Nat.lt_trichotomy x y with h | h | h
      · exact Or.inl (Or.inl h)
      · subst h
        rcases ih ys with h' | h'
        · exact Or.inl (Or.inr ⟨rfl, h'⟩)
        · exact Or.inr (Or.inr ⟨rfl, h'⟩)
      · exact Or.inr (Or.inl h)

/-- The lexicographic order on character codes is transitive. -/
theorem lexLe_trans (a b c : List Nat) (hab : lexLe a b = true) (hbc : lexLe b c = true) :
    lexLe a c = true := by
  induction a generalizing b c with
  | nil => cases c <;> rfl
  | cons x xs ih =>
    cases b with
    | nil => simp [lexLe] at hab
    | cons y ys =>
      cases c with
      | nil => simp [lexLe] at hbc
      | cons z zs =>
        simp only [lexLe, Bool.or_eq_true, Bool.and_eq_true, decide_eq_true_eq,
          beq_iff_eq] at hab hbc ⊢
        rcases hab with h₁ | ⟨h₁, h₁'⟩ <;> rcases hbc with h₂ | ⟨h₂, h₂'⟩
        · exact Or.inl (lt_trans h₁ h₂)
        · exact Or.inl (h₂ ▸ h₁)
        · exact Or.inl (h₁ ▸ h₂)
        · exact Or.inr ⟨h₁.trans h₂, ih ys zs h₁' h₂'⟩

/-- The case-insensitive order by display name is total. -/
theorem nameLe_total : IsTotal (ExportTargetDescriptor Icon) nameLe :=
  ⟨fun a b => lexLe_total (caseFold a.displayName) (caseFold b.displayName)⟩

/-- The case-insensitive order by display name is transitive. -/
theorem nameLe_trans : IsTrans (ExportTargetDescriptor Icon) nameLe :=
  ⟨fun a b c hab hbc =>
    lexLe_trans (caseFold a.displayName) (caseFold b.displayName) (caseFold c.displayName)
      hab hbc⟩

/-- The descriptors of a concatenation. -/
theorem descriptors_append (xs ys : List (AggregatorEvent Icon)) :
    descriptors (xs ++ ys) = descriptors xs ++ descriptors ys := by
  simp [descriptors, List.filterMap_append]

/-- A separator carries no descriptor. -/
theorem descriptors_separator (xs : List (AggregatorEvent Icon)) :
    descriptors (.separator :: xs) = descriptors xs := by
  simp [descriptors, List.filterMap_cons]

/-- The descriptors of a list of descriptor events. -/
theorem descriptors_map (ds : List (ExportTargetDescriptor Icon)) :
    descriptors (ds.map AggregatorEvent.descriptor) = ds := by
  induction ds with
  | nil => rfl
  | cons d ds ih =>
    simp only [descriptors, List.map_cons, List.filterMap_cons] at ih ⊢
    rw [ih]

/-- The plugin groups hold no system-service descriptor. -/
theorem pluginGroups_no_service (n : Int) (plugins : List (Option (List (PluginAction Icon)))) :
    (descriptors (pluginGroups n plugins)).filter
      ExportTargetDescriptor.isSystemService = [] := by
  induction plugins generalizing n with
  | nil => rfl
  | cons p ps ih =>
    have hmap : ∀ l : List (PluginAction Icon),
        (descriptors (l.map (fun a => AggregatorEvent.descriptor (a.toDescriptor n)))).filter
          ExportTargetDescriptor.isSystemService = [] := by
      intro l
      have : l.map (fun a => AggregatorEvent.descriptor (a.toDescriptor n)) =
          (l.map (PluginAction.toDescriptor n)).map AggregatorEvent.descriptor := by
        simp [List.map_map]
      rw [this, descriptors_map, List.filter_eq_nil_iff]
      intro d hd
      obtain ⟨a, -, rfl⟩ := List.mem_map.mp hd
      simp [PluginAction.toDescriptor, ExportTargetDescriptor.isSystemService]
    cases ps with
    | nil => exact hmap _
    | cons q qs =>
      simp only [pluginGroups]
      rw [descriptors_append, descriptors_separator, List.filter_append, hmap, ih]
      rfl

/-- The system-service descriptors of a pass are the sorted service results. -/
theorem process_services (clipboard openWith : String × Icon)
    (services : Option (List (ServiceResult Icon)))
    (plugins : List (Option (List (PluginAction Icon)))) :
    (descriptors (process clipboard openWith services plugins)).filter
      ExportTargetDescriptor.isSystemService =
      ((services.getD []).map ServiceResult.toDescriptor).insertionSort nameLe := by
  unfold process
  rw [descriptors_append, descriptors_separator, descriptors_append, descriptors_separator,
    List.filter_append, List.filter_append, pluginGroups_no_service, List.append_nil]
  have h₁ : (descriptors (hardcodedGroup clipboard openWith)).filter
      ExportTargetDescriptor.isSystemService = [] := by
    simp [hardcodedGroup, descriptors, ExportTargetDescriptor.isSystemService]
  rw [h₁, List.nil_append, serviceGroup, descriptors_map, List.filter_eq_self]
  intro d hd
  have hd' : d ∈ (services.getD []).map ServiceResult.toDescriptor :=
    (List.perm_insertionSort nameLe _).subset hd
  obtain ⟨r, -, rfl⟩ := List.mem_map.mp hd'
  simp [ServiceResult.toDescriptor, ExportTargetDescriptor.isSystemService]

/-- C8: for all provider results, failing ones included, one aggregation pass emits the
Clipboard entry first and the OpenWithApplication entry second, so that every
system-service and plugin entry comes after both; the system-service entries are the
results sorted by display name, case-insensitively ascending (the results "Viewer",
"archiver", "Editor" come out as archiver, Editor, Viewer); the whole sequence is
`[Hardcoded..., SEP, SystemService..., SEP, Plugin1 actions..., SEP, Plugin2 actions...]`. -/
theorem process_discovery_order (clipboard openWith : String × Icon)
    (services : Option (List (ServiceResult Icon)))
    (plugins : List (Option (List (PluginAction Icon)))) :
    (process clipboard openWith services plugins)[0]? =
      some (.descriptor ⟨clipboard.1, clipboard.2, .Hardcoded .Clipboard⟩) ∧
    (process clipboard openWith services plugins)[1]? =
      some (.descriptor ⟨openWith.1, openWith.2, .Hardcoded .OpenWithApplication⟩) ∧
    (∀ (i : Nat) (d : ExportTargetDescriptor Icon),
      (process clipboard openWith services plugins)[i]? = some (.descriptor d) →
      d.isSystemService = true ∨ d.isPluginExport = true → 2 ≤ i) ∧
    List.Sorted nameLe ((descriptors (process clipboard openWith services plugins)).filter
      ExportTargetDescriptor.isSystemService) ∧
    List.Perm ((descriptors (process clipboard openWith services plugins)).filter
      ExportTargetDescriptor.isSystemService)
      ((services.getD []).map ServiceResult.toDescriptor) ∧
    process clipboard openWith services plugins =
      hardcodedGroup clipboard openWith ++ .separator :: serviceGroup services ++
        .separator :: pluginGroups 1 plugins ∧
    (descriptors (serviceGroup (some [(⟨"Viewer", (), "viewer"⟩ : ServiceResult Unit),
        ⟨"archiver", (), "archiver"⟩, ⟨"Editor", (), "editor"⟩]))).map
      ExportTargetDescriptor.displayName = ["archiver", "Editor", "Viewer"] := by
  refine ⟨by simp [process, hardcodedGroup], by simp [process, hardcodedGroup], ?_, ?_, ?_,
    rfl, by decide⟩
  · intro i d hi hd
    match i, hi with
    | 0, hi =>
      simp only [process, hardcodedGroup, List.cons_append, List.getElem?_cons_zero,
        Option.some.injEq, AggregatorEvent.descriptor.injEq] at hi
      subst hi
      simp [ExportTargetDescriptor.isSystemService, ExportTargetDescriptor.isPluginExport] at hd
    | 1, hi =>
      simp only [process, hardcodedGroup, List.cons_append, List.getElem?_cons_succ,
        List.getElem?_cons_zero, Option.some.injEq, AggregatorEvent.descriptor.injEq] at hi
      subst hi
      simp [ExportTargetDescriptor.isSystemService, ExportTargetDescriptor.isPluginExport] at hd
    | n + 2, _ => omega
  · rw [process_services]
    haveI := @nameLe_total Icon
    haveI := @nameLe_trans Icon
    exact List.sorted_insertionSort nameLe _
  · rw [process_services]
    exact List.perm_insertionSort nameLe _

/-- Witness of C8: a pass with three services and two plugins, the first of which fails;
the plugin action sits at index 8, after both hardcoded entries. -/
theorem process_discovery_order_witness :
    (process ("Copy To Clipboard", ()) ("Other Application", ())
      (some [⟨"Viewer", (), "viewer"⟩, ⟨"archiver", (), "archiver"⟩,
        ⟨"Editor", (), "editor"⟩])
      [none, some [⟨42, "Upload", ()⟩]])[8]? =
      some (.descriptor ⟨"Upload", (), .PluginExport 42 2⟩) ∧
    (⟨"Upload", (), .PluginExport 42 2⟩ : ExportTargetDescriptor Unit).isPluginExport = true ∧
    2 ≤ 8 :=
  ⟨by decide, rfl,
    (process_discovery_order ("Copy To Clipboard", ()) ("Other Application", ())
      (some [⟨"Viewer", (), "viewer"⟩, ⟨"archiver", (), "archiver"⟩,
        ⟨"Editor", (), "editor"⟩])
      [none, some [⟨42, "Upload", ()⟩]]).2.2.1 8 ⟨"Upload", (), .PluginExport 42 2⟩
      (by decide) (Or.inr rfl)⟩

end AggregatorTheorems

end KScreenGenie

namespace SettingsDialog

section SaveOptionsTheorems

variable (fold : Char → Char) (toUpper : String → String)

/-- What a matching round of the loop writes, as a function of the format alone. -/
theorem textEditedStep_match (newText : String) (p : SaveOptionsPage) (fmt : String)
    (h : endsWith fold newText ("." ++ fmt) = true) :
    textEditedStep fold toUpper newText p fmt =
      { mSaveNameFormat := chop newText (fmt.length + 1)
        mSaveImageFormat :=
          p.mSaveImageFormat.setCurrentIndex (p.mSaveImageFormat.findText (toUpper fmt)) } := by
  simp [textEditedStep, h]

/-- A round of the loop whose format does not match changes nothing. -/
theorem textEditedStep_no_match (newText : String) (p : SaveOptionsPage) (fmt : String)
    (h : endsWith fold newText ("." ++ fmt) = false) :
    textEditedStep fold toUpper newText p fmt = p := by
  simp [textEditedStep, h]

/-- The loop changes nothing when no format matches. -/
theorem textEdited_no_match (formats : List String) (p : SaveOptionsPage) (newText : String)
    (h : ∀ f ∈ formats, endsWith fold newText ("." ++ f) = false) :
    textEdited fold toUpper formats p newText = p := by
  induction formats generalizing p with
  | nil => rfl
  | cons g gs ih =>
    have hstep : textEdited fold toUpper (g :: gs) p newText =
        textEdited fold toUpper gs (textEditedStep fold toUpper newText p g) newText := rfl
    rw [hstep, textEditedStep_no_match fold toUpper newText p g (h g (List.mem_cons_self g gs))]
    exact ih p (fun f hf => h f (List.mem_cons_of_mem g hf))

/-- The loop over a list in which `f` matches and every matching format is `f` writes
what the round of `f` writes. -/
theorem textEdited_single_match (formats : List String) (p : SaveOptionsPage)
    (newText f : String) (hf : f ∈ formats)
    (hmatch : endsWith fold newText ("." ++ f) = true)
    (huniq : ∀ g ∈ formats, endsWith fold newText ("." ++ g) = true → g = f) :
    textEdited fold toUpper formats p newText =
      { mSaveNameFormat := chop newText (f.length + 1)
        mSaveImageFormat :=
          p.mSaveImageFormat.setCurrentIndex (p.mSaveImageFormat.findText (toUpper f)) } := by
  have key : ∀ (l : List String) (q : SaveOptionsPage),
      q.mSaveImageFormat.items = p.mSaveImageFormat.items →
      (∀ g ∈ l, endsWith fold newText ("." ++ g) = true → g = f) →
      textEdited fold toUpper l q newText =
        if l.any (fun g => endsWith fold newText ("." ++ g)) then
          { mSaveNameFormat := chop newText (f.length + 1)
            mSaveImageFormat :=
              p.mSaveImageFormat.setCurrentIndex (p.mSaveImageFormat.findText (toUpper f)) }
        else q := by
    intro l
    induction l with
    | nil => intro q _ _; rfl
    | cons g gs ih =>
      intro q hq hu
      have hstep : textEdited fold toUpper (g :: gs) q newText =
          textEdited fold toUpper gs (textEditedStep fold toUpper newText q g) newText := rfl
      have hu' : ∀ g' ∈ gs, endsWith fold newText ("." ++ g') = true → g' = f :=
        fun g' hg' => hu g' (List.mem_cons_of_mem g hg')
      rw [hstep]
      cases hg : endsWith fold newText ("." ++ g) with
      | true =>
        have hgf : g = f := hu g (List.mem_cons_self g gs) hg
        subst hgf
        rw [textEditedStep_match fold toUpper newText q g hg]
        have hset : q.mSaveImageFormat.setCurrentIndex (q.mSaveImageFormat.findText (toUpper g)) =
            p.mSaveImageFormat.setCurrentIndex (p.mSaveImageFormat.findText (toUpper g)) := by
          simp [ComboBox.setCurrentIndex, ComboBox.findText, hq]
        rw [hset, ih _ (by simp [ComboBox.setCurrentIndex]) hu']
        simp [List.any_cons, hg]
      | false =>
        rw [textEditedStep_no_match fold toUpper newText q g hg, ih q hq hu']
        simp [List.any_cons, hg]
  rw [key formats p rfl huniq]
  have hany : formats.any (fun g => endsWith fold newText ("." ++ g)) = true :=
    List.any_eq_true.mpr ⟨f, hf, hmatch⟩
  rw [if_pos hany]

/-- Two formats without a dot that both end the text after a dot have the same folded
characters. -/
theorem match_same_fold (newText f g : String)
    (hdot : ∀ c, fold c = fold '.' → c = '.')
    (hf : '.' ∉ f.data) (hg : '.' ∉ g.data)
    (mf : endsWith fold newText ("." ++ f) = true)
    (mg : endsWith fold newText ("." ++ g) = true) :
    f.data.map fold = g.data.map fold := by
  have key : ∀ a b : String, '.' ∉ b.data →
      endsWith fold newText ("." ++ a) = true → endsWith fold newText ("." ++ b) = true →
      a.data.length ≤ b.data.length → a.data.map fold = b.data.map fold := by
    intro a b hb ma mb hlen
    simp only [endsWith, String.data_append, List.isSuffixOf_iff_suffix] at ma mb
    simp only [List.singleton_append, List.map_cons] at ma mb
    have hsuf : (fold '.' :: a.data.map fold) <:+ (fold '.' :: b.data.map fold) :=
      List.suffix_of_suffix_length_le ma mb (by simpa using hlen)
    rcases List.suffix_cons_iff.mp hsuf with heq | hsuf'
    · exact (List.cons.inj heq).2
    · exfalso
      have hmem : fold '.' ∈ b.data.map fold :=
        hsuf'.subset (List.mem_cons_self _ _)
      obtain ⟨c, hc, hcf⟩ := List.mem_map.mp hmem
      exact hb (hdot c hcf ▸ hc)
  rcases Nat.le_total f.data.length g.data.length with h | h
  · exact key f g hg mf mg h
  · exact (key g f hf mg mf h).symm

/-- At most one format of a list without dots and without case variants matches. -/
theorem match_unique (formats : List String) (newText f g : String)
    (hdot : ∀ c, fold c = fold '.' → c = '.')
    (hnodot : ∀ f ∈ formats, '.' ∉ f.data)
    (hdistinct : formats.Pairwise (fun a b => a.data.map fold ≠ b.data.map fold))
    (hf : f ∈ formats) (hg : g ∈ formats)
    (mf : endsWith fold newText ("." ++ f) = true)
    (mg : endsWith fold newText ("." ++ g) = true) : f = g := by
  by_contra hne
  have hsymm : Symmetric (fun a b : String => a.data.map fold ≠ b.data.map fold) :=
    fun _ _ h => Ne.symm h
  exact List.Pairwise.forall hsymm hdistinct hf hg hne
    (match_same_fold fold newText f g hdot (hnodot f hf) (hnodot g hg) mf mg)

/-- Chopping a suffix of `n` characters off a text of at least `n` characters removes
exactly its last `n` characters. -/
theorem chop_spec (text : String) (n : Nat) (h : n ≤ text.data.length) :
    ∃ tail : List Char, text.data = (chop text n).data ++ tail ∧ tail.length = n := by
  refine ⟨text.data.drop (text.data.length - n), ?_, ?_⟩
  · exact (List.take_append_drop (text.data.length - n) text.data).symm
  · rw [List.length_drop]
    omega

/-- A matching text is at least as long as the dot and the format. -/
theorem match_length (newText f : String) (h : endsWith fold newText ("." ++ f) = true) :
    f.length + 1 ≤ newText.data.length := by
  simp only [endsWith, String.data_append, List.isSuffixOf_iff_suffix] at h
  have := h.length_le
  simp only [List.length_map, List.length_append] at this
  have hd : ".".data.length = 1 := rfl
  rw [hd] at this
  simp only [String.length]
  omega

/-- Selecting the found index of a text that is among the items makes it the current
text. -/
theorem currentText_setCurrentIndex_findText (c : ComboBox) (text : String)
    (h : text ∈ c.items) :
    (c.setCurrentIndex (c.findText text)).currentText = text := by
  have hlt : c.items.indexOf text < c.items.length := List.indexOf_lt_length.mpr h
  have hget : c.items[c.items.indexOf text]? = some text := by
    rw [← List.get?_eq_getElem?]
    exact List.indexOf_get? h
  have h₀ : (0 : Int) ≤ (c.items.indexOf text : Int) := Int.natCast_nonneg _
  have h₁ : ((c.items.indexOf text : Nat) : Int) < (c.items.length : Int) := by
    exact_mod_cast hlt
  simp only [ComboBox.currentText, ComboBox.setCurrentIndex, ComboBox.findText, if_pos h,
    h₀, h₁, and_self, if_true, Int.toNat_ofNat, hget, Option.getD_some]

/-- ASCII case folding sends no other character to the dot. -/
theorem asciiFold_dot (c : Char) (h : asciiFold c = asciiFold '.') : c = '.' := by
  have hd : asciiFold '.' = '.' := by decide
  rw [hd] at h
  unfold asciiFold Char.toLower at h
  dsimp only at h
  split_ifs at h with hc
  · exfalso
    obtain ⟨h₁, h₂⟩ := hc
    generalize c.toNat = n at h h₁ h₂
    have h₁' : 65 ≤ n := h₁
    have h₂' : n ≤ 90 := h₂
    interval_cases n <;> exact absurd h (by decide)
  · exact h

/-- C11: for the `textEdited` handler of the filename field, every edited text and every
list of supported formats whose entries hold no '.' and are pairwise distinct ignoring
case: at most one format `f` has the text end with "." followed by `f`, ignoring case; when
there is one, the field text becomes the edited text without its last `length f + 1`
characters and the format selector shows the entry `toUpper f`, whatever the order of
the list; when there is none, the field text and the selector stay as they were. -/
theorem textEdited_strips_extension (formats : List String) (p : SaveOptionsPage)
    (newText : String)
    (hdot : ∀ c, fold c = fold '.' → c = '.')
    (hnodot : ∀ f ∈ formats, '.' ∉ f.data)
    (hdistinct : formats.Pairwise (fun a b => a.data.map fold ≠ b.data.map fold))
    (hitems : p.mSaveImageFormat.items = imageFormatItems toUpper formats) :
    (∀ f ∈ formats, ∀ g ∈ formats, endsWith fold newText ("." ++ f) = true →
      endsWith fold newText ("." ++ g) = true → f = g) ∧
    (∀ f ∈ formats, endsWith fold newText ("." ++ f) = true →
      (textEdited fold toUpper formats p newText).mSaveNameFormat =
        chop newText (f.length + 1) ∧
      (∃ tail : List Char,
        newText.data = (textEdited fold toUpper formats p newText).mSaveNameFormat.data ++ tail ∧
        tail.length = f.length + 1) ∧
      (textEdited fold toUpper formats p newText).mSaveImageFormat.items =
        p.mSaveImageFormat.items ∧
      (textEdited fold toUpper formats p newText).mSaveImageFormat.currentText = toUpper f ∧
      (∀ (formats' : List String) (p' : SaveOptionsPage), formats'.Perm formats →
        p'.mSaveImageFormat.items = imageFormatItems toUpper formats' →
        (textEdited fold toUpper formats' p' newText).mSaveNameFormat =
          (textEdited fold toUpper formats p newText).mSaveNameFormat ∧
        (textEdited fold toUpper formats' p' newText).mSaveImageFormat.currentText =
          (textEdited fold toUpper formats p newText).mSaveImageFormat.currentText)) ∧
    ((∀ f ∈ formats, endsWith fold newText ("." ++ f) = false) →
      textEdited fold toUpper formats p newText = p) := by
  have huniq : ∀ f ∈ formats, ∀ g ∈ formats, endsWith fold newText ("." ++ f) = true →
      endsWith fold newText ("." ++ g) = true → f = g :=
    fun f hf g hg mf mg =>
      match_unique fold formats newText f g hdot hnodot hdistinct hf hg mf mg
  have hmem : ∀ (l : List String) (q : SaveOptionsPage),
      q.mSaveImageFormat.items = imageFormatItems toUpper l → ∀ f ∈ l,
      toUpper f ∈ q.mSaveImageFormat.items := by
    intro l q hq f hf
    rw [hq]
    exact List.mem_map.mpr ⟨f, hf, rfl⟩
  refine ⟨huniq, ?_, textEdited_no_match fold toUpper formats p newText⟩
  intro f hf mf
  have hres := textEdited_single_match fold toUpper formats p newText f hf mf
    (fun g hg mg => huniq g hg f hf mg mf)
  rw [hres]
  refine ⟨rfl, chop_spec newText (f.length + 1) (match_length fold newText f mf), ?_, ?_, ?_⟩
  · simp [ComboBox.setCurrentIndex]
  · exact currentText_setCurrentIndex_findText _ _ (hmem formats p hitems f hf)
  · intro formats' p' hperm hitems'
    have hf' : f ∈ formats' := hperm.symm.subset hf
    have hres' := textEdited_single_match fold toUpper formats' p' newText f hf' mf
      (fun g hg mg => huniq g (hperm.subset hg) f hf mg mf)
    rw [hres']
    refine ⟨rfl, ?_⟩
    rw [currentText_setCurrentIndex_findText _ _ (hmem formats' p' hitems' f hf'),
      currentText_setCurrentIndex_findText _ _ (hmem formats p hitems f hf)]

/-- Witness of C11: the formats bmp, jpeg, jpg, png and the edited text "shot.PNG"; the
field becomes "shot" and the selector shows "PNG". -/
theorem textEdited_strips_extension_witness :
    (textEdited asciiFold asciiUpper ["bmp", "jpeg", "jpg", "png"]
      ⟨"shot.PNG", ⟨imageFormatItems asciiUpper ["bmp", "jpeg", "jpg", "png"], 0⟩⟩
      "shot.PNG").mSaveNameFormat = chop "shot.PNG" ("png".length + 1) ∧
    chop "shot.PNG" ("png".length + 1) = "shot" ∧
    (textEdited asciiFold asciiUpper ["bmp", "jpeg", "jpg", "png"]
      ⟨"shot.PNG", ⟨imageFormatItems asciiUpper ["bmp", "jpeg", "jpg", "png"], 0⟩⟩
      "shot.PNG").mSaveImageFormat.currentText = asciiUpper "png" ∧
    asciiUpper "png" = "PNG" :=
  ⟨((textEdited_strips_extension asciiFold asciiUpper ["bmp", "jpeg", "jpg", "png"]
      ⟨"shot.PNG", ⟨imageFormatItems asciiUpper ["bmp", "jpeg", "jpg", "png"], 0⟩⟩
      "shot.PNG" asciiFold_dot (by decide) (by decide) rfl).2.1 "png" (by decide)
      (by decide)).1,
    by decide,
    ((textEdited_strips_extension asciiFold asciiUpper ["bmp", "jpeg", "jpg", "png"]
      ⟨"shot.PNG", ⟨imageFormatItems asciiUpper ["bmp", "jpeg", "jpg", "png"], 0⟩⟩
      "shot.PNG" asciiFold_dot (by decide) (by decide) rfl).2.1 "png" (by decide)
      (by decide)).2.2.2.1,
    by decide⟩

end SaveOptionsTheorems

section GeneralOptionsTheorems

/-- C12: for every state of the radio buttons and checkboxes of `GeneralOptionsPage`,
after `saveChanges` the stored `alwaysRememberRegion` is "Always is checked", the stored
`rememberLastRectangularRegion` is "Always is checked or Until-closed is checked", so the
first implies the second, and the dirty flag `mChangesMade` is false. -/
theorem saveChanges_remember_region (page : GeneralOptionsPage) (cfg : SpectacleConfig) :
    (page.saveChanges cfg).2.alwaysRememberRegion = page.mRememberAlways ∧
    (page.saveChanges cfg).2.rememberLastRectangularRegion =
      (page.mRememberAlways || page.mRememberUntilClosed) ∧
    ((page.saveChanges cfg).2.alwaysRememberRegion = true →
      (page.saveChanges cfg).2.rememberLastRectangularRegion = true) ∧
    (page.saveChanges cfg).1.mChangesMade = false := by
  refine ⟨rfl, ?_, ?_, rfl⟩
  · simp only [GeneralOptionsPage.saveChanges]
    exact Bool.or_comm _ _
  · intro h
    have h' : page.mRememberAlways = true := h
    simp [GeneralOptionsPage.saveChanges, h']

/-- Witness of C12: a page edited to "Always", saved over a configuration that remembered
nothing. -/
theorem saveChanges_remember_region_witness :
    ((GeneralOptionsPage.markDirty ⟨.Checked, .Unchecked, false, true, false, false⟩).saveChanges
      ⟨false, false, false, true⟩).2.alwaysRememberRegion = true ∧
    ((GeneralOptionsPage.markDirty ⟨.Checked, .Unchecked, false, true, false, false⟩).saveChanges
      ⟨false, false, false, true⟩).2.rememberLastRectangularRegion = true ∧
    ((GeneralOptionsPage.markDirty ⟨.Checked, .Unchecked, false, true, false, false⟩).saveChanges
      ⟨false, false, false, true⟩).1.mChangesMade = false :=
  ⟨rfl,
    (saveChanges_remember_region
      (GeneralOptionsPage.markDirty ⟨.Checked, .Unchecked, false, true, false, false⟩)
      ⟨false, false, false, true⟩).2.2.1 rfl,
    (saveChanges_remember_region
      (GeneralOptionsPage.markDirty ⟨.Checked, .Unchecked, false, true, false, false⟩)
      ⟨false, false, false, true⟩).2.2.2⟩

end GeneralOptionsTheorems

end SettingsDialog
